import Mathlib

/-!
Shallow embedding of the session-token lifecycle subsystem of the
qurekanode-supabase backend: the registration lock (src/utils/requestLock.js),
the token utilities (tokenUtil: generate/save/verify/setTokenCookies), the
refresh-token store (src/models/tokenModel.js), the access-token middleware
(authMiddleware.verifyToken) and the auth controller (refreshToken, logout).

Machine integers are modelled as Nat (JS timestamps in milliseconds are
non-negative and far below 2^53, so no overflow is reachable); fallible
storage calls return Except; the supabase client's error mode is a Boolean
flag on the database state.
-/

namespace Qureka

/-- Identity claim bundle placed in tokens: the controllers build
`{ id, userid, name, rememberMe }` at login and `{ id, userid, name }`
(no rememberMe) at refresh, hence the Option. -/
structure UserInfo where
  id : Nat
  userid : String
  name : String
  rememberMe : Option Bool
  deriving DecidableEq, Repr

/-- A signed JSON Web Token, modelled from the external jsonwebtoken
library: `jwt.sign(payload, secret, { expiresIn })` records the payload,
the signing secret, the issue instant and the expiry instant. -/
structure Jwt where
  payload : UserInfo
  secret : String
  iat : Nat
  exp : Nat
  deriving DecidableEq, Repr

/-- Outcome of `jwt.verify`: success with the decoded payload,
TokenExpiredError, or any other JsonWebTokenError. -/
inductive JwtResult where
  | ok (payload : UserInfo)
  | tokenExpired
  | invalid
  deriving DecidableEq, Repr

/-- jwt.sign: deterministic signing with an expiry of now + expiresIn. -/
def jwtSign (payload : UserInfo) (secret : String) (now expiresInMs : Nat) : Jwt :=
  { payload := payload, secret := secret, iat := now, exp := now + expiresInMs }

/-- jwt.verify on a structurally well-formed token: a secret mismatch is an
invalid signature; otherwise the token is expired exactly when the clock
has reached `exp`; otherwise the payload is returned. -/
def jwtVerify (t : Jwt) (secret : String) (now : Nat) : JwtResult :=
  if t.secret ≠ secret then .invalid
  else if t.exp ≤ now then .tokenExpired
  else .ok t.payload

/-- A token string as presented by a client: `raw` is the literal string
(the thing bcrypt-compared against stored hashes), `jwt` is its parse —
`none` for a malformed string that jwt.verify rejects outright. -/
structure Presented where
  raw : String
  jwt : Option Jwt
  deriving DecidableEq, Repr

/-- jwt.verify applied to a presented string: malformed input throws a
JsonWebTokenError, i.e. lands in the invalid case. -/
def jwtVerifyStr (p : Presented) (secret : String) (now : Nat) : JwtResult :=
  match p.jwt with
  | none => .invalid
  | some t => jwtVerify t secret now

/-- The two signing secrets from the environment (distinct opaque values). -/
def ACCESS_TOKEN_SECRET : String := "access-token-secret"

def REFRESH_TOKEN_SECRET : String := "refresh-token-secret"

/-- ACCESS_TOKEN_EXPIRES_IN default of one hour, in milliseconds. -/
def accessTokenExpiresInMs : Nat := 60 * 60 * 1000

/-- REFRESH_TOKEN_EXPIRES_IN default of seven days, in milliseconds. -/
def refreshTokenExpiresInMs : Nat := 7 * 24 * 60 * 60 * 1000

/-- tokenUtil.generateAccessToken: sign the payload with the access secret
and the fixed access TTL. -/
def generateAccessToken (payload : UserInfo) (now : Nat) : Jwt :=
  jwtSign payload ACCESS_TOKEN_SECRET now accessTokenExpiresInMs

/-- tokenUtil.generateRefreshToken: sign the payload with the refresh secret
and the fixed refresh TTL; the rememberMe choice is not consulted. -/
def generateRefreshToken (payload : UserInfo) (now : Nat) : Jwt :=
  jwtSign payload REFRESH_TOKEN_SECRET now refreshTokenExpiresInMs

/-- The serialized wire form of a signed token (the string the client
presents and the store hashes). -/
def encodeJwt (t : Jwt) : String :=
  t.secret ++ "." ++ t.payload.userid ++ "." ++ toString t.iat ++ "." ++ toString t.exp

/-! ## Registration lock (src/utils/requestLock.js) -/

/-- One lock map entry: the acquisition timestamp. The setTimeout handle of
the source is a runtime resource with no observable state beyond the entry
it eventually removes; the periodic cleanup sweep is modelled explicitly. -/
structure LockInfo where
  timestamp : Nat
  deriving DecidableEq, Repr

/-- The RequestLock instance: the key → lockInfo map (as an association
list) and the fixed auto-release window. -/
structure RequestLock where
  locks : List (String × LockInfo)
  timeout : Nat
  deriving DecidableEq, Repr

/-- The constructor: empty map, 5000 ms auto-release window. -/
def newRequestLock : RequestLock :=
  { locks := [], timeout := 5000 }

/-- Map.has on the lock map. -/
def RequestLock.holdsKey (s : RequestLock) (k : String) : Bool :=
  s.locks.any (fun kv => kv.1 == k)

/-- RequestLock.acquire: refuse if the key is already held, else record it
with the current timestamp and succeed. -/
def RequestLock.acquire (s : RequestLock) (k : String) (now : Nat) : Bool × RequestLock :=
  if s.holdsKey k then (false, s)
  else (true, { s with locks := (k, { timestamp := now }) :: s.locks })

/-- RequestLock.release: clear the entry if present, otherwise do nothing. -/
def RequestLock.release (s : RequestLock) (k : String) : RequestLock :=
  { s with locks := s.locks.filter (fun kv => kv.1 != k) }

/-- RequestLock.cleanup: release every entry whose age strictly exceeds the
window (the source compares `now - timestamp > timeout`; Nat subtraction
truncates at zero exactly as the JS comparison rejects negative ages). -/
def RequestLock.cleanup (s : RequestLock) (now : Nat) : RequestLock :=
  { s with locks := s.locks.filter (fun kv => !(now - kv.2.timestamp > s.timeout)) }

/-- A burst of acquire calls for one key at successive instants, returning
each call's result and the final lock state. -/
def RequestLock.acquireSeq (s : RequestLock) (k : String) (times : List Nat) :
    List Bool × RequestLock :=
  match times with
  | [] => ([], s)
  | t :: ts =>
    let r1 := s.acquire k t
    let r2 := r1.2.acquireSeq k ts
    (r1.1 :: r2.1, r2.2)

/-! ## Refresh-token store (src/models/tokenModel.js) -/

/-- bcrypt (external library): a salted one-way hash retains which plaintext
it hashed together with a per-call salt, so equal plaintexts hash to
different values under different salts; `bcrypt.compare` succeeds exactly
on the hashed plaintext. -/
structure BcryptHash where
  plain : String
  salt : Nat
  deriving DecidableEq, Repr

/-- bcrypt.compare: match the candidate plaintext against a stored hash. -/
def bcryptCompare (plainToken : String) (h : BcryptHash) : Bool :=
  plainToken == h.plain

/-- One row of the refresh_token table. -/
structure TokenRow where
  id : Nat
  user_id : Nat
  token : BcryptHash
  expires_at : Nat
  deriving DecidableEq, Repr

/-- The refresh_token table plus its transport: `failing` models the
supabase client returning an error on every call, `nextId` the id
sequence used by inserts. -/
structure Db where
  rows : List TokenRow
  failing : Bool
  nextId : Nat
  deriving DecidableEq, Repr

namespace Token

/-- Token.deleteRefreshToken: reject a falsy userId, then delete every row
of that user (deleting zero rows is not an error). -/
def deleteRefreshToken (userId : Nat) (db : Db) : Except Unit Db :=
  if userId = 0 then .error ()
  else if db.failing then .error ()
  else .ok { db with rows := db.rows.filter (fun r => r.user_id != userId) }

/-- Token.saveRefreshToken: validate, delete the user's previous row, then
insert the new hashed row. The source also guards `!hashedToken` and
`!expiresAt`, but both arguments arrive as an object and a Date, which are
always truthy, so those guards cannot fire on this call path. -/
def saveRefreshToken (userId : Nat) (hashedToken : BcryptHash) (expiresAt : Nat)
    (db : Db) : Except Unit (TokenRow × Db) :=
  if userId = 0 then .error ()
  else
    match deleteRefreshToken userId db with
    | .error e => .error e
    | .ok db1 =>
      if db1.failing then .error ()
      else
        let row : TokenRow :=
          { id := db1.nextId, user_id := userId, token := hashedToken, expires_at := expiresAt }
        .ok (row, { db1 with rows := db1.rows ++ [row], nextId := db1.nextId + 1 })

/-- Token.findRefreshToken: load all rows and return the first whose stored
hash matches the plaintext, or none. -/
def findRefreshToken (plainToken : String) (db : Db) : Except Unit (Option TokenRow) :=
  if db.failing then .error ()
  else .ok (db.rows.find? (fun r => bcryptCompare plainToken r.token))

/-- Token.deleteRefreshTokenByToken: resolve the row via findRefreshToken,
report false when no row matches, else delete it by id. -/
def deleteRefreshTokenByToken (plainToken : String) (db : Db) : Except Unit (Bool × Db) :=
  match findRefreshToken plainToken db with
  | .error e => .error e
  | .ok none => .ok (false, db)
  | .ok (some row) =>
    if db.failing then .error ()
    else .ok (true, { db with rows := db.rows.filter (fun r => r.id != row.id) })

end Token

/-! ## Token utilities (src/utils/tokenUtil.js) -/

/-- tokenUtil.saveRefreshToken: hash the plaintext with bcrypt (the salt is
an explicit model parameter) and persist it with a hard-coded expiry of
now + 7 days — the rememberMe choice is not consulted here. -/
def saveRefreshToken (userId : Nat) (refreshTokenStr : String) (salt now : Nat)
    (db : Db) : Except Unit (TokenRow × Db) :=
  Token.saveRefreshToken userId { plain := refreshTokenStr, salt := salt }
    (now + 7 * 24 * 60 * 60 * 1000) db

/-- tokenUtil.verifyRefreshToken: verify the signature, look the string up
in the store, and treat a persisted expiry in the past as fatal (deleting
the row). Every failure — thrown verification error, storage error,
missing row, expired row — is caught and collapsed to null. -/
def verifyRefreshToken (p : Presented) (now : Nat) (db : Db) : Option UserInfo × Db :=
  match jwtVerifyStr p REFRESH_TOKEN_SECRET now with
  | .ok decoded =>
    match Token.findRefreshToken p.raw db with
    | .error _ => (none, db)
    | .ok none => (none, db)
    | .ok (some row) =>
      if row.expires_at < now then
        match Token.deleteRefreshTokenByToken p.raw db with
        | .error _ => (none, db)
        | .ok r => (none, r.2)
      else (some decoded, db)
  | .tokenExpired => (none, db)
  | .invalid => (none, db)

/-- A transport cookie as set by the session code: name, lifetime, and
whether it is hidden from client scripts. -/
structure Cookie where
  name : String
  maxAge : Nat
  httpOnly : Bool
  deriving DecidableEq, Repr

/-- tokenUtil.setTokenCookies: the access cookie always lives one hour; the
refresh and rememberMe cookies live 30 days when rememberMe is set and
7 days otherwise. -/
def setTokenCookies (rememberMe : Bool) : List Cookie :=
  let refreshMaxAge : Nat :=
    if rememberMe then 30 * 24 * 60 * 60 * 1000 else 7 * 24 * 60 * 60 * 1000
  [ { name := "accessToken", maxAge := 60 * 60 * 1000, httpOnly := true },
    { name := "refreshToken", maxAge := refreshMaxAge, httpOnly := true },
    { name := "rememberMe", maxAge := refreshMaxAge, httpOnly := false } ]

/-! ## Controllers -/

/-- A user row of the external credential store. -/
structure UserRec where
  userindex : Nat
  userid : String
  name : String
  email : String
  deriving DecidableEq, Repr

/-- User.findByUserid against the external credential store. -/
def findByUserid (userid : String) (users : List UserRec) : Option UserRec :=
  users.find? (fun u => u.userid == userid)

/-- An HTTP response as far as the claims observe it: status, success flag,
issued access token, cookies set, cookies cleared. -/
structure HttpResp where
  status : Nat
  success : Bool
  accessToken : Option Jwt
  setCookieNames : List String
  clearedCookieNames : List String
  deriving DecidableEq, Repr

/-- The claim bundle userController.login signs into both tokens. -/
def loginUserInfo (user : UserRec) (rememberMe : Bool) : UserInfo :=
  { id := user.userindex, userid := user.userid, name := user.name,
    rememberMe := some rememberMe }

/-- The token-issuance tail of userController.login: build the claim bundle
(with rememberMe), sign both tokens, persist the refresh token, and set the
transport cookies. Credential checking is external and precedes this. -/
def loginIssueTokens (user : UserRec) (rememberMe : Bool) (now salt : Nat)
    (db : Db) : Except Unit (Jwt × Jwt × List Cookie × Db) :=
  let userInfo := loginUserInfo user rememberMe
  let accessTok := generateAccessToken userInfo now
  let refreshTok := generateRefreshToken userInfo now
  match saveRefreshToken user.userindex (encodeJwt refreshTok) salt now db with
  | .error e => .error e
  | .ok r => .ok (accessTok, refreshTok, setTokenCookies rememberMe, r.2)

/-- authController.refreshToken: missing token → 400; verification failure →
401 and both token cookies cleared; unknown user → 404; success → 200 with
a freshly signed access token set as the only cookie. -/
def authRefreshToken (tok : Option Presented) (now : Nat) (users : List UserRec)
    (db : Db) : HttpResp × Db :=
  match tok with
  | none =>
    ({ status := 400, success := false, accessToken := none,
       setCookieNames := [], clearedCookieNames := [] }, db)
  | some p =>
    match verifyRefreshToken p now db with
    | (none, db1) =>
      ({ status := 401, success := false, accessToken := none,
         setCookieNames := [],
         clearedCookieNames := ["accessToken", "refreshToken"] }, db1)
    | (some payload, db1) =>
      match findByUserid payload.userid users with
      | none =>
        ({ status := 404, success := false, accessToken := none,
           setCookieNames := [],
           clearedCookieNames := ["accessToken", "refreshToken"] }, db1)
      | some user =>
        let userInfo : UserInfo :=
          { id := user.userindex, userid := user.userid, name := user.name,
            rememberMe := none }
        ({ status := 200, success := true,
           accessToken := some (generateAccessToken userInfo now),
           setCookieNames := ["accessToken"], clearedCookieNames := [] }, db1)

/-- authController.logout: delete by token value when one is presented, else
by user id when the optional middleware attached one; then clear all three
auth cookies and answer 200. A thrown storage error reaches the catch
block, which answers 500 without clearing any cookie. -/
def authLogout (tok : Option Presented) (reqUser : Option UserInfo)
    (db : Db) : HttpResp × Db :=
  let okResp : HttpResp :=
    { status := 200, success := true, accessToken := none,
      setCookieNames := [],
      clearedCookieNames := ["accessToken", "refreshToken", "rememberMe"] }
  let errResp : HttpResp :=
    { status := 500, success := false, accessToken := none,
      setCookieNames := [], clearedCookieNames := [] }
  match tok with
  | some p =>
    match Token.deleteRefreshTokenByToken p.raw db with
    | .error _ => (errResp, db)
    | .ok r => (okResp, r.2)
  | none =>
    match reqUser with
    | some u =>
      if u.id ≠ 0 then
        match Token.deleteRefreshToken u.id db with
        | .error _ => (errResp, db)
        | .ok db1 => (okResp, db1)
      else (okResp, db)
    | none => (okResp, db)

/-- authMiddleware.verifyToken: pass with the decoded identity, or reject. -/
inductive GateResult where
  | pass (user : UserInfo)
  | reject (status : Nat) (expiredFlag : Bool)
  deriving DecidableEq, Repr

/-- authMiddleware.verifyToken: no token → 401 without expired flag; a
TokenExpiredError → 401 with expired true; any other verification error →
403; otherwise attach the decoded user and continue. -/
def verifyToken (tok : Option Presented) (now : Nat) : GateResult :=
  match tok with
  | none => .reject 401 false
  | some p =>
    match jwtVerifyStr p ACCESS_TOKEN_SECRET now with
    | .ok decoded => .pass decoded
    | .tokenExpired => .reject 401 true
    | .invalid => .reject 403 false

/-! ## Lemmas about the registration lock -/

theorem acquire_of_holds (s : RequestLock) (k : String) (now : Nat)
    (h : s.holdsKey k = true) : s.acquire k now = (false, s) := by
  simp [RequestLock.acquire, h]

theorem holdsKey_after_acquire (s : RequestLock) (k : String) (now : Nat) :
    ((s.acquire k now).2).holdsKey k = true := by
  cases hb : (s.locks.any fun kv => kv.1 == k) with
  | true =>
    have h2 : (s.acquire k now).2 = s := by
      simp [RequestLock.acquire, RequestLock.holdsKey, hb]
    rw [h2, RequestLock.holdsKey]
    exact hb
  | false =>
    simp [RequestLock.acquire, RequestLock.holdsKey, hb]

theorem acquireSeq_of_holds (s : RequestLock) (k : String) (ts : List Nat)
    (h : s.holdsKey k = true) :
    s.acquireSeq k ts = (List.replicate ts.length false, s) := by
  induction ts with
  | nil => simp [RequestLock.acquireSeq]
  | cons t ts ih =>
    simp [RequestLock.acquireSeq, acquire_of_holds s k t h, ih, List.replicate]

/-- C7: acquire(k) returns false when k is already held (leaving the state
unchanged) and otherwise records k and returns true; among a burst of
acquire(k) calls with no intervening release or sweep exactly the first
returns true; and release is idempotent, a no-op on an unheld key. -/
theorem lock_acquire_exclusive_and_release_idempotent :
    (∀ (s : RequestLock) (k : String) (now : Nat),
        s.holdsKey k = true → s.acquire k now = (false, s)) ∧
    (∀ (s : RequestLock) (k : String) (now : Nat),
        s.holdsKey k = false →
          (s.acquire k now).1 = true ∧ ((s.acquire k now).2).holdsKey k = true) ∧
    (∀ (s : RequestLock) (k : String) (t : Nat) (ts : List Nat),
        s.holdsKey k = false →
          (s.acquireSeq k (t :: ts)).1 = true :: List.replicate ts.length false) ∧
    (∀ (s : RequestLock) (k : String), s.holdsKey k = false → s.release k = s) ∧
    (∀ (s : RequestLock) (k : String), (s.release k).release k = s.release k) := by
  refine ⟨acquire_of_holds, ?_, ?_, ?_, ?_⟩
  · intro s k now h
    exact ⟨by simp [RequestLock.acquire, h], holdsKey_after_acquire s k now⟩
  · intro s k t ts h
    have h1 : (s.acquire k t).1 = true := by simp [RequestLock.acquire, h]
    have h2 := holdsKey_after_acquire s k t
    simp [RequestLock.acquireSeq, acquireSeq_of_holds _ k ts h2, h1]
  · intro s k h
    rw [RequestLock.holdsKey] at h
    have hall : ∀ kv ∈ s.locks, (kv.1 != k) = true := by
      intro kv hkv
      have h2 := List.any_eq_false.mp h kv hkv
      simpa using h2
    cases s with
    | mk locks timeout =>
      simp only [RequestLock.release]
      congr 1
      exact List.filter_eq_self.mpr hall
  · intro s k
    cases s with
    | mk locks timeout =>
      simp [RequestLock.release, List.filter_filter]

theorem lock_acquire_exclusive_and_release_idempotent_witness :
    newRequestLock.holdsKey "alice" = false ∧
    (newRequestLock.acquire "alice" 0).1 = true ∧
    ((newRequestLock.acquire "alice" 0).2).holdsKey "alice" = true ∧
    (newRequestLock.acquireSeq "alice" [0, 1, 2]).1 = [true, false, false] ∧
    newRequestLock.release "alice" = newRequestLock := by
  have h := lock_acquire_exclusive_and_release_idempotent
  refine ⟨rfl, (h.2.1 newRequestLock "alice" 0 rfl).1,
    (h.2.1 newRequestLock "alice" 0 rfl).2, ?_, h.2.2.2.1 newRequestLock "alice" rfl⟩
  have h3 := h.2.2.1 newRequestLock "alice" 0 [1, 2] rfl
  simpa using h3

/-- C8: the lock window defaults to 5000 ms, and once every entry for a key
is older than the window, the periodic cleanup sweep removes it, so a fresh
acquire for that key succeeds again without any explicit release. -/
theorem lock_entry_never_outlives_window :
    newRequestLock.timeout = 5000 ∧
    (∀ (s : RequestLock) (k : String) (now : Nat),
        (∀ info, (k, info) ∈ s.locks → s.timeout < now - info.timestamp) →
        ((s.cleanup now).acquire k now).1 = true) := by
  refine ⟨rfl, ?_⟩
  intro s k now h
  have hh : (s.cleanup now).holdsKey k = false := by
    rw [RequestLock.holdsKey]
    apply List.any_eq_false.mpr
    intro kv hkv
    rw [RequestLock.cleanup] at hkv
    simp only [List.mem_filter] at hkv
    rcases hkv with ⟨hmem, hkeep⟩
    intro hbeq
    have hk : kv.1 = k := by simpa using hbeq
    have hmem2 : (k, kv.2) ∈ s.locks := by
      rw [← hk]
      simpa using hmem
    have hexp := h kv.2 hmem2
    simp only [gt_iff_lt, Bool.not_eq_eq_eq_not, Bool.not_true, decide_eq_false_iff_not,
      not_lt] at hkeep
    omega
  simp [RequestLock.acquire, hh]

theorem lock_entry_never_outlives_window_witness :
    ((RequestLock.cleanup
        { locks := [("bob", { timestamp := 0 })], timeout := 5000 } 6000).acquire
      "bob" 6000).1 = true := by
  refine (lock_entry_never_outlives_window.2
    { locks := [("bob", { timestamp := 0 })], timeout := 5000 } "bob" 6000 ?_)
  intro info hmem
  simp only [List.mem_singleton, Prod.mk.injEq] at hmem
  rcases hmem with ⟨-, h2⟩
  subst h2
  decide

/-! ## The access-token gate -/

/-- C4: the access-token guard answers 401 without the expired flag when no
token is presented, 401 with the expired flag when the signature is valid
but the TTL has passed, and 403 for any other invalid-token condition;
the three rejections are pairwise distinct, so the caller can tell the
failure kinds apart. -/
theorem auth_gate_distinguishes_failures :
    (∀ now : Nat, verifyToken none now = .reject 401 false) ∧
    (∀ (p : Presented) (t : Jwt) (now : Nat),
        p.jwt = some t → t.secret = ACCESS_TOKEN_SECRET → t.exp ≤ now →
        verifyToken (some p) now = .reject 401 true) ∧
    (∀ (p : Presented) (now : Nat),
        jwtVerifyStr p ACCESS_TOKEN_SECRET now = .invalid →
        verifyToken (some p) now = .reject 403 false) ∧
    (GateResult.reject 401 false ≠ .reject 401 true ∧
      GateResult.reject 401 false ≠ .reject 403 false ∧
      GateResult.reject 401 true ≠ .reject 403 false) := by
  refine ⟨fun now => rfl, ?_, ?_, by decide⟩
  · intro p t now h1 h2 h3
    simp [verifyToken, jwtVerifyStr, h1, jwtVerify, h2, h3]
  · intro p now h
    simp [verifyToken, h]

/-- A sample identity claim bundle for witnesses. -/
def sampleUser : UserInfo :=
  { id := 1, userid := "u", name := "n", rememberMe := none }

/-- A sample access token that is expired at instant 100. -/
def sampleExpiredJwt : Jwt :=
  { payload := sampleUser, secret := ACCESS_TOKEN_SECRET, iat := 0, exp := 100 }

theorem auth_gate_distinguishes_failures_witness :
    verifyToken none 5 = .reject 401 false ∧
    verifyToken (some { raw := "e", jwt := some sampleExpiredJwt }) 100 = .reject 401 true ∧
    verifyToken (some { raw := "x", jwt := none }) 5 = .reject 403 false := by
  have h := auth_gate_distinguishes_failures
  exact ⟨h.1 5, h.2.1 _ sampleExpiredJwt 100 rfl rfl (by decide), h.2.2.1 _ 5 rfl⟩

/-- C9: verifying a freshly issued access token before its TTL elapses
succeeds and yields back exactly the claims that were signed into it. -/
theorem access_token_round_trip (claims : UserInfo) (now later : Nat)
    (h : later < now + accessTokenExpiresInMs) :
    verifyToken (some { raw := encodeJwt (generateAccessToken claims now),
                        jwt := some (generateAccessToken claims now) }) later
      = .pass claims := by
  have hne : ¬ (now + accessTokenExpiresInMs ≤ later) := by omega
  simp [verifyToken, jwtVerifyStr, generateAccessToken, jwtSign, jwtVerify, hne]

theorem access_token_round_trip_witness :
    verifyToken
        (some { raw := encodeJwt (generateAccessToken sampleUser 0),
                jwt := some (generateAccessToken sampleUser 0) }) 7
      = .pass sampleUser :=
  access_token_round_trip sampleUser 0 7 (by decide)

/-! ## Lemmas about the refresh-token store -/

theorem filter_idem {α : Type} (p : α → Bool) (l : List α) :
    (l.filter p).filter p = l.filter p := by
  induction l with
  | nil => rfl
  | cons a l ih => cases hp : p a <;> simp [List.filter_cons, hp, ih]

theorem filter_eq_nil_of {α : Type} (p : α → Bool) (l : List α)
    (h : ∀ a ∈ l, p a = false) : l.filter p = [] := by
  induction l with
  | nil => rfl
  | cons a l ih =>
    have ha := h a (by simp)
    rw [List.filter_cons, ha]
    simp only [Bool.false_eq_true, if_false]
    exact ih (fun x hx => h x (List.mem_cons_of_mem a hx))

theorem find?_append_none {α : Type} (p : α → Bool) (l1 l2 : List α)
    (h : ∀ x ∈ l1, p x = false) : (l1 ++ l2).find? p = l2.find? p := by
  induction l1 with
  | nil => simp
  | cons a l ih =>
    have ha := h a (by simp)
    rw [List.cons_append, List.find?_cons, ha]
    exact ih (fun x hx => h x (List.mem_cons_of_mem a hx))

/-- On a reachable store and a truthy userId, saveRefreshToken replaces the
user's rows by the single freshly inserted row. -/
theorem save_ok (userId : Nat) (hashed : BcryptHash) (expiresAt : Nat) (db : Db)
    (hu : userId ≠ 0) (hf : db.failing = false) :
    Token.saveRefreshToken userId hashed expiresAt db =
      .ok ({ id := db.nextId, user_id := userId, token := hashed, expires_at := expiresAt },
        { rows := db.rows.filter (fun r => r.user_id != userId) ++
            [{ id := db.nextId, user_id := userId, token := hashed, expires_at := expiresAt }],
          failing := db.failing, nextId := db.nextId + 1 }) := by
  simp [Token.saveRefreshToken, Token.deleteRefreshToken, hu, hf]

/-- C1: two sequential saves for the same user leave exactly one live row —
the second one's — so the first token no longer matches any stored row
while the second matches exactly the stored row. -/
theorem single_live_row_per_user
    (u : Nat) (tA tB : String) (saltA saltB nowA nowB : Nat) (db : Db)
    (rowA : TokenRow) (dbA : Db) (rowB : TokenRow) (dbB : Db)
    (hu : u ≠ 0) (hfail : db.failing = false)
    (hA : saveRefreshToken u tA saltA nowA db = .ok (rowA, dbA))
    (hB : saveRefreshToken u tB saltB nowB dbA = .ok (rowB, dbB))
    (hother : ∀ r ∈ db.rows, r.user_id ≠ u →
        bcryptCompare tA r.token = false ∧ bcryptCompare tB r.token = false)
    (hne : tA ≠ tB) :
    dbB.rows.filter (fun r => r.user_id == u) = [rowB] ∧
    Token.findRefreshToken tA dbB = .ok none ∧
    Token.findRefreshToken tB dbB = .ok (some rowB) := by
  have eA := save_ok u { plain := tA, salt := saltA } (nowA + 7 * 24 * 60 * 60 * 1000) db hu hfail
  rw [saveRefreshToken, eA] at hA
  simp only [Except.ok.injEq, Prod.mk.injEq] at hA
  obtain ⟨hrA, hdA⟩ := hA
  subst hrA
  subst hdA
  have eB := save_ok u { plain := tB, salt := saltB } (nowB + 7 * 24 * 60 * 60 * 1000)
    { rows := db.rows.filter (fun r => r.user_id != u) ++
        [{ id := db.nextId, user_id := u, token := { plain := tA, salt := saltA },
           expires_at := nowA + 7 * 24 * 60 * 60 * 1000 }],
      failing := db.failing, nextId := db.nextId + 1 } hu hfail
  rw [saveRefreshToken, eB] at hB
  simp only [Except.ok.injEq, Prod.mk.injEq] at hB
  obtain ⟨hrB, hdB⟩ := hB
  subst hrB
  subst hdB
  dsimp only
  have hsurvive :
      List.filter (fun r : TokenRow => r.user_id != u)
        (db.rows.filter (fun r => r.user_id != u) ++
          [TokenRow.mk db.nextId u (BcryptHash.mk tA saltA) (nowA + 7 * 24 * 60 * 60 * 1000)])
      = db.rows.filter (fun r => r.user_id != u) := by
    rw [List.filter_append, filter_idem]
    simp [List.filter_cons]
  rw [hsurvive]
  have hmemF : ∀ x ∈ db.rows.filter (fun r => r.user_id != u),
      x ∈ db.rows ∧ x.user_id ≠ u := by
    intro x hx
    rw [List.mem_filter] at hx
    exact ⟨hx.1, by simpa using hx.2⟩
  refine ⟨?_, ?_, ?_⟩
  · rw [List.filter_append,
      filter_eq_nil_of _ _ (fun x hx => by simp [(hmemF x hx).2])]
    simp
  · rw [Token.findRefreshToken]
    simp only [hfail, Bool.false_eq_true, if_false]
    rw [find?_append_none _ _ _ (fun x hx => ((hother x (hmemF x hx).1 (hmemF x hx).2).1))]
    simp [List.find?_cons, bcryptCompare, hne]
  · rw [Token.findRefreshToken]
    simp only [hfail, Bool.false_eq_true, if_false]
    rw [find?_append_none _ _ _ (fun x hx => ((hother x (hmemF x hx).1 (hmemF x hx).2).2))]
    simp [List.find?_cons, bcryptCompare]

theorem single_live_row_per_user_witness :
    (Db.mk [TokenRow.mk 1 1 (BcryptHash.mk "b" 0) 604800000] false 2).rows.filter
        (fun r => r.user_id == 1)
      = [TokenRow.mk 1 1 (BcryptHash.mk "b" 0) 604800000] ∧
    Token.findRefreshToken "a"
        (Db.mk [TokenRow.mk 1 1 (BcryptHash.mk "b" 0) 604800000] false 2) = .ok none ∧
    Token.findRefreshToken "b"
        (Db.mk [TokenRow.mk 1 1 (BcryptHash.mk "b" 0) 604800000] false 2)
      = .ok (some (TokenRow.mk 1 1 (BcryptHash.mk "b" 0) 604800000)) := by
  refine single_live_row_per_user 1 "a" "b" 0 0 0 0 (Db.mk [] false 0)
    (TokenRow.mk 0 1 (BcryptHash.mk "a" 0) 604800000)
    (Db.mk [TokenRow.mk 0 1 (BcryptHash.mk "a" 0) 604800000] false 1)
    (TokenRow.mk 1 1 (BcryptHash.mk "b" 0) 604800000)
    (Db.mk [TokenRow.mk 1 1 (BcryptHash.mk "b" 0) 604800000] false 2)
    (by decide) rfl rfl rfl (by simp) (by decide)

/-! ## Refresh verification and the refresh endpoint -/

/-- A sample refresh token signed with the refresh secret, live until 1000. -/
def sampleRefreshJwt : Jwt :=
  { payload := sampleUser, secret := REFRESH_TOKEN_SECRET, iat := 0, exp := 1000 }

/-- A stored row for sampleUser whose persisted expiry (50) is long past. -/
def sampleRow : TokenRow :=
  { id := 0, user_id := 1, token := { plain := "r", salt := 0 }, expires_at := 50 }

/-- A store holding only sampleRow. -/
def sampleDb : Db :=
  { rows := [sampleRow], failing := false, nextId := 1 }

/-- C3: when a presented refresh token's signature verifies and its embedded
expiry has not elapsed, but the persisted row's expiry has passed, refresh
verification deletes that row from the store and the endpoint answers 401:
the persisted expiry is authoritative. -/
theorem refresh_persisted_expiry_is_authoritative
    (p : Presented) (t : Jwt) (row : TokenRow) (now : Nat) (db : Db)
    (users : List UserRec)
    (hjwt : p.jwt = some t) (hsec : t.secret = REFRESH_TOKEN_SECRET)
    (hlive : now < t.exp)
    (hfind : Token.findRefreshToken p.raw db = .ok (some row))
    (hexp : row.expires_at < now) :
    (verifyRefreshToken p now db).1 = none ∧
    row ∉ (verifyRefreshToken p now db).2.rows ∧
    (authRefreshToken (some p) now users db).1.status = 401 := by
  obtain ⟨rows, failing, nextId⟩ := db
  cases failing with
  | true =>
    exfalso
    rw [Token.findRefreshToken] at hfind
    simp at hfind
  | false =>
    rw [Token.findRefreshToken] at hfind
    simp only [Bool.false_eq_true, if_false, Except.ok.injEq] at hfind
    have hnotle : ¬ (t.exp ≤ now) := by omega
    have hstr : jwtVerifyStr p REFRESH_TOKEN_SECRET now = .ok t.payload := by
      simp [jwtVerifyStr, hjwt, jwtVerify, hsec, hnotle]
    have hver : verifyRefreshToken p now (Db.mk rows false nextId) =
        (none, Db.mk (rows.filter (fun r => r.id != row.id)) false nextId) := by
      simp [verifyRefreshToken, hstr, Token.findRefreshToken, hfind, hexp,
        Token.deleteRefreshTokenByToken]
    refine ⟨by rw [hver], ?_, ?_⟩
    · rw [hver]
      simp only [List.mem_filter]
      rintro ⟨-, hid⟩
      simp at hid
    · simp [authRefreshToken, hver]

theorem refresh_persisted_expiry_is_authoritative_witness :
    (verifyRefreshToken { raw := "r", jwt := some sampleRefreshJwt } 100 sampleDb).1 = none ∧
    sampleRow ∉
      (verifyRefreshToken { raw := "r", jwt := some sampleRefreshJwt } 100 sampleDb).2.rows ∧
    (authRefreshToken (some { raw := "r", jwt := some sampleRefreshJwt }) 100 []
        sampleDb).1.status = 401 :=
  refresh_persisted_expiry_is_authoritative
    { raw := "r", jwt := some sampleRefreshJwt } sampleRefreshJwt sampleRow 100 sampleDb []
    rfl rfl (by decide) rfl (by decide)

/-- Refresh verification only touches the store on its expired-row branch:
whenever it yields a payload, the store comes back unchanged. -/
theorem verifyRefreshToken_success_db (p : Presented) (now : Nat) (db : Db)
    (h : (verifyRefreshToken p now db).1.isSome = true) :
    (verifyRefreshToken p now db).2 = db := by
  cases hs : jwtVerifyStr p REFRESH_TOKEN_SECRET now with
  | ok decoded =>
    cases hf : Token.findRefreshToken p.raw db with
    | error e0 =>
      have he : verifyRefreshToken p now db = (none, db) := by
        simp [verifyRefreshToken, hs, hf]
      rw [he]
    | ok o =>
      cases o with
      | none =>
        have he : verifyRefreshToken p now db = (none, db) := by
          simp [verifyRefreshToken, hs, hf]
        rw [he]
      | some row =>
        by_cases hexp : row.expires_at < now
        · cases hd : Token.deleteRefreshTokenByToken p.raw db with
          | error e0 =>
            have he : verifyRefreshToken p now db = (none, db) := by
              simp [verifyRefreshToken, hs, hf, hexp, hd]
            rw [he]
          | ok r =>
            have he : verifyRefreshToken p now db = (none, r.2) := by
              simp [verifyRefreshToken, hs, hf, hexp, hd]
            rw [he] at h
            simp at h
        · have he : verifyRefreshToken p now db = (some decoded, db) := by
            simp [verifyRefreshToken, hs, hf, hexp]
          rw [he]
  | tokenExpired =>
    have he : verifyRefreshToken p now db = (none, db) := by
      simp [verifyRefreshToken, hs]
    rw [he]
  | invalid =>
    have he : verifyRefreshToken p now db = (none, db) := by
      simp [verifyRefreshToken, hs]
    rw [he]

/-- C6: a successful refresh issues a new access token only — the store is
left exactly as it was (the presented refresh token is not rotated and no
refresh row changes), the response sets only the access cookie, and the
only token it carries is a freshly signed access token. -/
theorem refresh_success_issues_access_token_only (tok : Option Presented) (now : Nat)
    (users : List UserRec) (db : Db)
    (h : (authRefreshToken tok now users db).1.status = 200) :
    (authRefreshToken tok now users db).2 = db ∧
    (authRefreshToken tok now users db).1.setCookieNames = ["accessToken"] ∧
    (authRefreshToken tok now users db).1.clearedCookieNames = [] ∧
    (∃ u : UserRec,
        (authRefreshToken tok now users db).1.accessToken
          = some (generateAccessToken
              { id := u.userindex, userid := u.userid, name := u.name,
                rememberMe := none } now)) := by
  cases tok with
  | none => simp [authRefreshToken] at h
  | some p =>
    rcases hveq : verifyRefreshToken p now db with ⟨pl, db1⟩
    cases pl with
    | none => simp [authRefreshToken, hveq] at h
    | some u =>
      have hdb1 : db1 = db := by
        have h2 := verifyRefreshToken_success_db p now db (by rw [hveq]; rfl)
        rw [hveq] at h2
        exact h2
      cases hfu : findByUserid u.userid users with
      | none => simp [authRefreshToken, hveq, hfu] at h
      | some user =>
        have hred : authRefreshToken (some p) now users db =
            ({ status := 200, success := true,
               accessToken := some (generateAccessToken
                 { id := user.userindex, userid := user.userid, name := user.name,
                   rememberMe := none } now),
               setCookieNames := ["accessToken"], clearedCookieNames := [] }, db1) := by
          simp [authRefreshToken, hveq, hfu]
        rw [hred]
        exact ⟨hdb1, rfl, rfl, ⟨user, rfl⟩⟩

/-- A stored row for sampleUser that is still live at instant 100. -/
def sampleLiveRow : TokenRow :=
  { id := 0, user_id := 1, token := { plain := "r", salt := 0 }, expires_at := 2000000000 }

/-- A store holding only sampleLiveRow. -/
def sampleLiveDb : Db :=
  { rows := [sampleLiveRow], failing := false, nextId := 1 }

/-- The credential-store record matching sampleUser. -/
def sampleUserRec : UserRec :=
  { userindex := 1, userid := "u", name := "n", email := "e" }

theorem refresh_success_issues_access_token_only_witness :
    (authRefreshToken (some { raw := "r", jwt := some sampleRefreshJwt }) 100 [sampleUserRec]
        sampleLiveDb).2 = sampleLiveDb ∧
    (authRefreshToken (some { raw := "r", jwt := some sampleRefreshJwt }) 100 [sampleUserRec]
        sampleLiveDb).1.setCookieNames = ["accessToken"] ∧
    (authRefreshToken (some { raw := "r", jwt := some sampleRefreshJwt }) 100 [sampleUserRec]
        sampleLiveDb).1.clearedCookieNames = [] ∧
    (∃ u : UserRec,
        (authRefreshToken (some { raw := "r", jwt := some sampleRefreshJwt }) 100 [sampleUserRec]
            sampleLiveDb).1.accessToken
          = some (generateAccessToken
              { id := u.userindex, userid := u.userid, name := u.name,
                rememberMe := none } 100)) :=
  refresh_success_issues_access_token_only
    (some { raw := "r", jwt := some sampleRefreshJwt }) 100 [sampleUserRec] sampleLiveDb rfl

/-- C10: refresh-token verification collapses every failure cause to the
same null result — invalid signature, token-embedded expiry, storage error,
absent matching row, and expired persisted row — and whenever it yields
null the refresh endpoint answers a single 401, so the endpoint cannot
distinguish an expired refresh token from an invalid one. -/
theorem refresh_verification_collapses_failures :
    (∀ (p : Presented) (now : Nat) (db : Db),
        jwtVerifyStr p REFRESH_TOKEN_SECRET now = .invalid →
        (verifyRefreshToken p now db).1 = none) ∧
    (∀ (p : Presented) (now : Nat) (db : Db),
        jwtVerifyStr p REFRESH_TOKEN_SECRET now = .tokenExpired →
        (verifyRefreshToken p now db).1 = none) ∧
    (∀ (p : Presented) (now : Nat) (db : Db),
        db.failing = true → (verifyRefreshToken p now db).1 = none) ∧
    (∀ (p : Presented) (now : Nat) (db : Db),
        Token.findRefreshToken p.raw db = .ok none →
        (verifyRefreshToken p now db).1 = none) ∧
    (∀ (p : Presented) (now : Nat) (db : Db) (row : TokenRow),
        Token.findRefreshToken p.raw db = .ok (some row) → row.expires_at < now →
        (verifyRefreshToken p now db).1 = none) ∧
    (∀ (p : Presented) (now : Nat) (users : List UserRec) (db : Db),
        (verifyRefreshToken p now db).1 = none →
        (authRefreshToken (some p) now users db).1.status = 401) := by
  refine ⟨?_, ?_, ?_, ?_, ?_, ?_⟩
  · intro p now db hs
    simp [verifyRefreshToken, hs]
  · intro p now db hs
    simp [verifyRefreshToken, hs]
  · intro p now db hf
    cases hs : jwtVerifyStr p REFRESH_TOKEN_SECRET now with
    | ok decoded =>
      have hfe : Token.findRefreshToken p.raw db = .error () := by
        simp [Token.findRefreshToken, hf]
      simp [verifyRefreshToken, hs, hfe]
    | tokenExpired => simp [verifyRefreshToken, hs]
    | invalid => simp [verifyRefreshToken, hs]
  · intro p now db hfind
    cases hs : jwtVerifyStr p REFRESH_TOKEN_SECRET now with
    | ok decoded => simp [verifyRefreshToken, hs, hfind]
    | tokenExpired => simp [verifyRefreshToken, hs]
    | invalid => simp [verifyRefreshToken, hs]
  · intro p now db row hfind hexp
    cases hs : jwtVerifyStr p REFRESH_TOKEN_SECRET now with
    | ok decoded =>
      cases hd : Token.deleteRefreshTokenByToken p.raw db with
      | error e0 => simp [verifyRefreshToken, hs, hfind, hexp, hd]
      | ok r => simp [verifyRefreshToken, hs, hfind, hexp, hd]
    | tokenExpired => simp [verifyRefreshToken, hs]
    | invalid => simp [verifyRefreshToken, hs]
  · intro p now users db hnone
    rcases hveq : verifyRefreshToken p now db with ⟨pl, db1⟩
    rw [hveq] at hnone
    simp only at hnone
    subst hnone
    simp [authRefreshToken, hveq]

theorem refresh_verification_collapses_failures_witness :
    (verifyRefreshToken { raw := "x", jwt := none } 0 sampleDb).1 = none ∧
    (verifyRefreshToken { raw := "r", jwt := some sampleRefreshJwt } 100
        (Db.mk [] true 0)).1 = none ∧
    (authRefreshToken (some { raw := "x", jwt := none }) 0 [] sampleDb).1.status = 401 := by
  have h := refresh_verification_collapses_failures
  refine ⟨h.1 { raw := "x", jwt := none } 0 sampleDb rfl,
    h.2.2.1 { raw := "r", jwt := some sampleRefreshJwt } 100 (Db.mk [] true 0) rfl,
    h.2.2.2.2.2 { raw := "x", jwt := none } 0 [] sampleDb
      (h.1 { raw := "x", jwt := none } 0 sampleDb rfl)⟩

/-! ## Logout -/

/-- On a reachable store, one logout call answers a success-shaped 200,
clears all three auth cookies, and leaves the store reachable. -/
theorem authLogout_ok_of_reachable (tok : Option Presented) (reqUser : Option UserInfo)
    (db : Db) (hfail : db.failing = false) :
    (authLogout tok reqUser db).1.status = 200 ∧
    (authLogout tok reqUser db).1.success = true ∧
    (authLogout tok reqUser db).1.clearedCookieNames
      = ["accessToken", "refreshToken", "rememberMe"] ∧
    (authLogout tok reqUser db).2.failing = false := by
  cases tok with
  | some p =>
    cases hf : db.rows.find? (fun r => bcryptCompare p.raw r.token) with
    | none =>
      simp [authLogout, Token.deleteRefreshTokenByToken, Token.findRefreshToken, hfail, hf]
    | some row =>
      simp [authLogout, Token.deleteRefreshTokenByToken, Token.findRefreshToken, hfail, hf]
  | none =>
    cases reqUser with
    | some u =>
      by_cases hu : u.id = 0
      · simp [authLogout, hu, hfail]
      · simp [authLogout, hu, Token.deleteRefreshToken, hfail]
    | none => simp [authLogout, hfail]

/-- C5 counterexample: a storage failure during logout does not degrade to
success — the endpoint answers 500 with no cookies cleared. -/
theorem logout_failure_returns_500_counterexample :
    (authLogout (some { raw := "t", jwt := none }) none (Db.mk [] true 0)).1.status = 500 ∧
    (authLogout (some { raw := "t", jwt := none }) none (Db.mk [] true 0)).1.success = false ∧
    (authLogout (some { raw := "t", jwt := none }) none
        (Db.mk [] true 0)).1.clearedCookieNames = [] := by
  refine ⟨rfl, rfl, rfl⟩

/-- C5 (amended): on a reachable store, logout answers a success-shaped 200
and clears all three auth cookies whether or not a matching row was found,
and a second logout with the same now-deleted token again answers success —
but a storage error thrown during deletion produces a 500 error response
rather than degrading to success. -/
theorem logout_idempotent_success_on_reachable_store
    (tok : Option Presented) (reqUser : Option UserInfo) (db : Db)
    (hfail : db.failing = false) :
    (authLogout tok reqUser db).1.status = 200 ∧
    (authLogout tok reqUser db).1.success = true ∧
    (authLogout tok reqUser db).1.clearedCookieNames
      = ["accessToken", "refreshToken", "rememberMe"] ∧
    (authLogout tok reqUser (authLogout tok reqUser db).2).1.status = 200 ∧
    (authLogout tok reqUser (authLogout tok reqUser db).2).1.success = true ∧
    (∀ (db2 : Db) (p : Presented), db2.failing = true →
        (authLogout (some p) reqUser db2).1.status = 500) := by
  have h1 := authLogout_ok_of_reachable tok reqUser db hfail
  have h2 := authLogout_ok_of_reachable tok reqUser (authLogout tok reqUser db).2 h1.2.2.2
  refine ⟨h1.1, h1.2.1, h1.2.2.1, h2.1, h2.2.1, ?_⟩
  intro db2 p hf2
  simp [authLogout, Token.deleteRefreshTokenByToken, Token.findRefreshToken, hf2]

theorem logout_idempotent_success_on_reachable_store_witness :
    (authLogout (some { raw := "r", jwt := none }) none sampleLiveDb).1.status = 200 ∧
    (authLogout (some { raw := "r", jwt := none }) none
        (authLogout (some { raw := "r", jwt := none }) none sampleLiveDb).2).1.status = 200 := by
  have h := logout_idempotent_success_on_reachable_store
    (some { raw := "r", jwt := none }) none sampleLiveDb rfl
  exact ⟨h.1, h.2.2.2.1⟩

/-! ## rememberMe and the token lifetimes -/

/-- C2 counterexample: at a concrete login with rememberMe = true, the
issued refresh token's embedded expiry and the persisted row's expiresAt
are both 7 days (604800000 ms), not the 30 days the claim states; only the
cookies receive the 30-day lifetime. -/
theorem remember_me_thirty_day_ttl_counterexample :
    loginIssueTokens sampleUserRec true 0 0 (Db.mk [] false 0)
      = .ok (generateAccessToken (loginUserInfo sampleUserRec true) 0,
          generateRefreshToken (loginUserInfo sampleUserRec true) 0,
          setTokenCookies true,
          Db.mk [TokenRow.mk 0 1
            (BcryptHash.mk
              (encodeJwt (generateRefreshToken (loginUserInfo sampleUserRec true) 0)) 0)
            604800000] false 1) ∧
    (generateRefreshToken (loginUserInfo sampleUserRec true) 0).exp = 604800000 ∧
    (604800000 : Nat) ≠ 30 * 24 * 60 * 60 * 1000 :=
  ⟨rfl, rfl, by decide⟩

/-- C2 (amended): rememberMe = true extends only the refresh-token and
rememberMe cookies' lifetime to 30 days (7 days when false); the issued
refresh token's embedded TTL and the persisted expiresAt are 7 days in
both cases, and the access token's TTL is one hour in both cases. -/
theorem remember_me_extends_cookie_ttl_only
    (user : UserRec) (rm : Bool) (now salt : Nat) (db : Db)
    (hu : user.userindex ≠ 0) (hfail : db.failing = false) :
    (∃ row db1,
        loginIssueTokens user rm now salt db
          = .ok (generateAccessToken (loginUserInfo user rm) now,
              generateRefreshToken (loginUserInfo user rm) now,
              setTokenCookies rm, db1) ∧
        db1.rows = db.rows.filter (fun r => r.user_id != user.userindex) ++ [row] ∧
        row.expires_at = now + 7 * 24 * 60 * 60 * 1000) ∧
    (generateAccessToken (loginUserInfo user rm) now).exp = now + 60 * 60 * 1000 ∧
    (generateRefreshToken (loginUserInfo user rm) now).exp
      = now + 7 * 24 * 60 * 60 * 1000 ∧
    (setTokenCookies rm).map Cookie.maxAge
      = [60 * 60 * 1000,
         if rm then 30 * 24 * 60 * 60 * 1000 else 7 * 24 * 60 * 60 * 1000,
         if rm then 30 * 24 * 60 * 60 * 1000 else 7 * 24 * 60 * 60 * 1000] := by
  have e := save_ok user.userindex
    { plain := encodeJwt (generateRefreshToken (loginUserInfo user rm) now), salt := salt }
    (now + 7 * 24 * 60 * 60 * 1000) db hu hfail
  refine ⟨⟨TokenRow.mk db.nextId user.userindex
      (BcryptHash.mk (encodeJwt (generateRefreshToken (loginUserInfo user rm) now)) salt)
      (now + 7 * 24 * 60 * 60 * 1000),
    Db.mk (db.rows.filter (fun r => r.user_id != user.userindex) ++
        [TokenRow.mk db.nextId user.userindex
          (BcryptHash.mk (encodeJwt (generateRefreshToken (loginUserInfo user rm) now)) salt)
          (now + 7 * 24 * 60 * 60 * 1000)])
      db.failing (db.nextId + 1), ?_, rfl, rfl⟩, rfl, rfl, ?_⟩
  · simp only [loginIssueTokens, saveRefreshToken]
    rw [e]
  · cases rm <;> simp [setTokenCookies]

theorem remember_me_extends_cookie_ttl_only_witness :
    (setTokenCookies true).map Cookie.maxAge = [3600000, 2592000000, 2592000000] ∧
    (setTokenCookies false).map Cookie.maxAge = [3600000, 604800000, 604800000] ∧
    (generateRefreshToken (loginUserInfo sampleUserRec true) 0).exp = 604800000 ∧
    (generateAccessToken (loginUserInfo sampleUserRec true) 0).exp = 3600000 := by
  have h1 := remember_me_extends_cookie_ttl_only sampleUserRec true 0 0 (Db.mk [] false 0)
    (by decide) rfl
  have h2 := remember_me_extends_cookie_ttl_only sampleUserRec false 0 0 (Db.mk [] false 0)
    (by decide) rfl
  refine ⟨by simpa using h1.2.2.2, by simpa using h2.2.2.2,
    by simpa using h1.2.2.1, by simpa using h1.2.1⟩

end Qureka
